import Mathlib

/-!
Verification of the MicroTeX atom-to-box layout core against its
natural-language specification.  The definitions below are a shallow
embedding of the C++ sources: sizes are rationals, `sptr<Box>`-typed
results become `Box` values, stateful `createBox` methods that mutate
their atom become explicit state-passing functions, and C++ exceptions
become `Except` / `Option` results.
-/

namespace MicroTeX

/-- Geometric box produced by layout: width, height above the baseline,
depth below the baseline and a vertical shift (`Box::_shift`). -/
structure Box where
  width : ℚ
  height : ℚ
  depth : ℚ
  shift : ℚ
  deriving DecidableEq, Repr

/-- Total vertical extent of a box, `Box::vlen() = _height + _depth`. -/
def Box.vlen (b : Box) : ℚ := b.height + b.depth

/-! ## ResizeAtom (src/atom/atom_misc.cpp, `ResizeAtom::createBox`)

`Units::fsize(dim, env)` converts a declared dimension to a size; the
embedding takes the already-converted target sizes as `Option ℚ`, where
`none` stands for an invalid (`!isValid()`) dimension. -/

/-- Result of `ResizeAtom::createBox`: either the base box returned
unchanged, or a `ScaleBox` wrapping the base with factors `sx`, `sy`. -/
inductive ResizeResult where
  | unchanged (b : Box)
  | scaled (b : Box) (sx sy : ℚ)
  deriving DecidableEq, Repr

/-- Shallow embedding of `ResizeAtom::createBox`: `width`/`height` are the
converted target sizes (`none` when the stored dimension is invalid),
`keepAspectRatio` is the `_keepAspectRatio` flag, `box` the base box. -/
def resizeCreateBox (width height : Option ℚ) (keepAspectRatio : Bool) (box : Box) :
    ResizeResult :=
  match width, height with
  | none, none => .unchanged box
  | some w, some h =>
    let sx := w / box.width
    let sy := h / box.vlen
    if keepAspectRatio then
      let sx' := min sx sy
      .scaled box sx' sx'
    else
      .scaled box sx sy
  | some w, none =>
    let sx := w / box.width
    .scaled box sx sx
  | none, some h =>
    let sy := h / box.vlen
    .scaled box sy sy

/-! ## LongDivAtom (src/atom/atom_misc.cpp, `LongDivAtom::calculate`) -/

/-- Numeric value of a decimal digit character, as in `x[i] - '0'`. -/
def digitVal (c : Char) : Int := (c.toNat : Int) - ('0'.toNat : Int)

/-- Loop body of `LongDivAtom::calculate`: for each quotient digit
(characters `cs` still to process give the power of ten) push the partial
product and the new remainder. -/
def longDivLoop (divisor : Int) : List Char → Int → List String
  | [], _ => []
  | c :: cs, remaining =>
    let b : Int := digitVal c * (10 : Int) ^ cs.length
    let product := b * divisor
    let r := remaining - product
    toString product :: toString r :: longDivLoop divisor cs r

/-- Shallow embedding of `LongDivAtom::calculate`: quotient first, then the
initial remainder (the dividend), then per quotient digit the partial
product followed by the running remainder.  C++ `long` division truncates
toward zero, hence `Int.tdiv`. -/
def longDivCalculate (divisor dividend : Int) : List String :=
  let quotient := Int.tdiv dividend divisor
  let x := toString quotient
  toString quotient :: toString dividend :: longDivLoop divisor x.data dividend

/-! ## FencedAtom (src/unnamed/part_000, `FencedAtom::createBox` and
`MiddleAtom::createBox`)

The base atom's own layout is abstracted by passing the base's box
(`_base->createBox(env)` result) as an argument; `none` stands for a null
`_base`.  The `HBox` assembly and the `Glue::get` spacing boxes do not
affect the delimiter boxes' geometry and are outside the claims, so the
embedding returns the delimiter/base boxes directly. -/

/-- Layout environment as used by `FencedAtom::createBox`: the math-axis
height, the scale factor, and the font's families of vertically stretched
delimiter variants for a symbol (increasingly tall). -/
structure FEnv where
  axisHeight : ℚ
  scale : ℚ
  delimVariants : String → List Box

/-- Modelled from the spec: `tex::createVDelim` (box_factory, not in src)
builds a delimiter "as a 'vertically stretched' variant
chosen/synthesized to match that extent" — it picks from the symbol's
variant family the first variant whose total vertical extent reaches the
requested extent, and otherwise synthesizes an extensible assembly of
exactly that extent, so the result's extent is always at least the
request. -/
def createVDelim (sym : String) (env : FEnv) (h : ℚ) : Box :=
  match (env.delimVariants sym).find? (fun v => h ≤ v.vlen) with
  | some v => v
  | none => { width := 0, height := h, depth := 0, shift := 0 }

/-- State of a `MiddleAtom`: its delimiter symbol and its `_height` field,
which `FencedAtom::createBox` overwrites with the base's extent. -/
structure MidAtom where
  sym : String
  height : ℚ
  deriving DecidableEq, Repr

/-- Modelled from the spec: a middle atom's `_placeholder` (atom_fence.h,
not in src) is the empty marker box occupying the middle's position in
the base row until the delimiter's "final height is resolved". -/
def midPlaceholder : Box := { width := 0, height := 0, depth := 0, shift := 0 }

/-- Shallow embedding of `MiddleAtom::createBox`: the placeholder while
`_height == 0`, otherwise a stretched delimiter of extent `_height`. -/
def midCreateBox (m : MidAtom) (env : FEnv) : Box :=
  if m.height = 0 then midPlaceholder else createVDelim m.sym env m.height

/-- State of a `FencedAtom` relevant to layout: left/right delimiter names,
the middle atoms, and whether the base is a `RowAtom` together with that
row's breakable flag (cleared by `setBreakable(false)` during layout). -/
structure FencedAtom where
  left : String
  right : String
  mids : List MidAtom
  baseIsRow : Bool
  baseBreakable : Bool
  deriving DecidableEq, Repr

/-- Boxes produced by `FencedAtom::createBox`: the left/right delimiters
(when the delimiter name is neither empty nor `"."`), the middle
delimiter boxes spliced back into the base at their placeholders, and the
centered base box.  `isEmptyStrut` marks the null-base early return. -/
structure FencedOut where
  isEmptyStrut : Bool
  leftBox : Option Box
  midBoxes : List Box
  baseBox : Option Box
  rightBox : Option Box
  deriving DecidableEq, Repr

/-- Vertical centering on the math axis, the `center` lambda of
`FencedAtom::createBox`: `b->_shift = -(b->vlen()/2 - b->_height) - axis`. -/
def centerOnAxis (axis : ℚ) (b : Box) : Box :=
  { b with shift := -(b.vlen / 2 - b.height) - axis }

/-- Shallow embedding of `FencedAtom::createBox`.  `baseBox?` is the box
the base atom lays out to (`none` for a null `_base`).  The function
returns the produced boxes together with the atom's state after the call,
making the mutations (`r->setBreakable(false)`, `m->_height = h`)
explicit. -/
def fencedCreateBox (f : FencedAtom) (env : FEnv) (baseBox? : Option Box) :
    FencedOut × FencedAtom :=
  match baseBox? with
  | none => (⟨true, none, [], none, none⟩, f)
  | some bb =>
    let f := if f.baseIsRow then { f with baseBreakable := false } else f
    let axis := env.axisHeight * env.scale
    let base := centerOnAxis axis bb
    let h := base.vlen
    let newMids := f.mids.map (fun m => { m with height := h })
    let midBoxes := newMids.map (fun m =>
      let b := centerOnAxis axis (midCreateBox m env)
      { b with shift := b.shift - base.shift })
    let lout := if f.left ≠ "" ∧ f.left ≠ "." then
        some (centerOnAxis axis (createVDelim f.left env h)) else none
    let rout := if f.right ≠ "" ∧ f.right ≠ "." then
        some (centerOnAxis axis (createVDelim f.right env h)) else none
    (⟨false, lout, midBoxes, some base, rout⟩, { f with mids := newMids })

/-- Vertical-shift value the claim asserts for every stretched delimiter:
`-(extent/2 - height) - axisHeight·scale` computed from the delimiter
box's own extent and height. -/
def delimShiftClaim (env : FEnv) (b : Box) : Prop :=
  b.shift = -(b.vlen / 2 - b.height) - env.axisHeight * env.scale

instance (env : FEnv) (b : Box) : Decidable (delimShiftClaim env b) := by
  unfold delimShiftClaim; infer_instance

/-- Concrete environment for the C1/C5 counterexamples: axis height 1 at
scale 1, no pre-built delimiter variants. -/
def fenv0 : FEnv := ⟨1, 1, fun _ => []⟩

/-- Concrete fenced atom for the C1/C5 counterexamples: parentheses around
a base with one interior middle delimiter of unresolved height. -/
def fencedEx : FencedAtom := ⟨"(", ")", [⟨"|", 0⟩], false, true⟩

/-- Concrete base box for the C1/C5 counterexamples: height 1, depth 1. -/
def baseBoxEx : Box := ⟨1, 1, 1, 0⟩

/-! ## SideSetsAtom (src/atom/atom_basic.cpp lines 392–417)

`SideSetsAtom::createBox` mutates the atom tree during layout: a null
`_base` is replaced by a phantom atom, and a left/right `ScriptsAtom`
cluster whose `_base` is null receives a placeholder base derived from
the base box (the left cluster also gets right alignment).  The embedding
returns the atom's state after the call; the assembled `HBox` only wraps
the children's own layouts (external to this fragment — in this source
snapshot `ScriptsAtom::createBox` is a stub) and is not needed by the
claims. -/

/-- Base atoms a `SideSetsAtom` can hold: the phantom built around
`CharAtom(L'M', "mathnormal")` when `_base` was null, a `PlaceholderAtom`
with the recorded geometry, or any other atom. -/
inductive SSBase where
  | phantomM
  | placeholder (w h d shift : ℚ)
  | otherBase (n : Nat)
  deriving DecidableEq, Repr

/-- The `Alignment` enumeration, as far as the claims need it. -/
inductive Alignment where
  | none
  | left
  | right
  | center
  | top
  | bottom
  deriving DecidableEq, Repr

/-- State of a `ScriptsAtom` used as a side cluster: its `_base` and
`_align` fields, the two fields `SideSetsAtom::createBox` writes. -/
structure SideScripts where
  base : Option SSBase
  align : Alignment
  deriving DecidableEq, Repr

/-- A `SideSetsAtom`'s `_left`/`_right` child: null, a `ScriptsAtom` (the
`dynamic_cast` succeeds), or some other atom kind. -/
inductive SideChild where
  | nullChild
  | scriptsChild (s : SideScripts)
  | otherChild (n : Nat)
  deriving DecidableEq, Repr

/-- Fields of a `SideSetsAtom` that its `createBox` reads or writes. -/
structure SideSetsAtom where
  base : Option SSBase
  leftC : SideChild
  rightC : SideChild
  deriving DecidableEq, Repr

/-- The `PlaceholderAtom(0, bb->_height, bb->_depth, bb->_shift)` built
from the base box. -/
def placeholderOf (bb : Box) : SSBase := .placeholder 0 bb.height bb.depth bb.shift

/-- Shallow embedding of `SideSetsAtom::createBox`, returning the atom's
state after the call.  `layoutOf` abstracts `_base->createBox(env)`, the
box each possible base atom lays out to. -/
def sideSetsCreateBox (layoutOf : SSBase → Box) (a : SideSetsAtom) : SideSetsAtom :=
  let base := match a.base with
    | none => SSBase.phantomM
    | some b => b
  let bb := layoutOf base
  let pa := placeholderOf bb
  let leftC := match a.leftC with
    | .scriptsChild s =>
      if s.base = none then SideChild.scriptsChild { base := some pa, align := .right }
      else SideChild.scriptsChild s
    | c => c
  let rightC := match a.rightC with
    | .scriptsChild s =>
      if s.base = none then SideChild.scriptsChild { s with base := some pa }
      else SideChild.scriptsChild s
    | c => c
  { base := some base, leftC := leftC, rightC := rightC }

/-- Declarative description of the one mutation `SideSetsAtom::createBox`
applies to a side cluster: a `ScriptsAtom` child whose base is null gets
the placeholder installed as base (and, on the left side, right
alignment); every other child is left unchanged. -/
def sideInstall (pa : SSBase) (isLeft : Bool) : SideChild → SideChild
  | .scriptsChild s =>
    if s.base = none then
      .scriptsChild { base := some pa, align := if isLeft then .right else s.align }
    else .scriptsChild s
  | c => c

/-! ## Atom trees (src/atom/atom_basic.cpp, `CumulativeScriptsAtom`;
src/unnamed/part_001, `Formula`) -/

/-- Closed fragment of the atom data model needed by the claims: generic
leaves, `RowAtom` (an ordered container of children), `ScriptsAtom`
(base + optional sub/sup), `CumulativeScriptsAtom` (base + sub/sup row
containers) and `EmptyAtom`. -/
inductive SAtom where
  | leaf (n : Nat)
  | row (elems : List SAtom)
  | scripts (base : SAtom) (sub sup : Option SAtom)
  | cumulative (base : SAtom) (sub sup : List SAtom)
  | emptyAtom
  deriving Repr

/-- Modelled from the spec: `RowAtom::add` (atom_row, not in src) appends
an atom "onto the existing sub/super row containers"; a null atom
appends nothing. -/
def rowAdd (elems : List SAtom) : Option SAtom → List SAtom
  | none => elems
  | some a => elems ++ [a]

/-- Modelled from the spec: the `RowAtom` one-argument constructor (not in
src) makes a row container holding the given atom, or an empty container
for a null atom. -/
def rowOf : Option SAtom → List SAtom
  | none => []
  | some a => [a]

/-- Tag test corresponding to the constructor's two `dynamic_cast` probes:
is the atom a `CumulativeScriptsAtom` or a `ScriptsAtom`? -/
def isScriptKind : SAtom → Bool
  | .cumulative _ _ _ => true
  | .scripts _ _ _ => true
  | _ => false

/-- Shallow embedding of the `CumulativeScriptsAtom` constructor
(atom_basic.cpp): merging with a cumulative base appends onto its row
containers and keeps its base; a scripts base is unpacked into fresh row
containers first; any other base starts fresh containers. -/
def cumulativeScripts (base : SAtom) (sub sup : Option SAtom) : SAtom :=
  match base with
  | .cumulative b sb sp => .cumulative b (rowAdd sb sub) (rowAdd sp sup)
  | .scripts b sb sp => .cumulative b (rowAdd (rowOf sb) sub) (rowAdd (rowOf sp) sup)
  | _ => .cumulative base (rowOf sub) (rowOf sup)

/-! ## Formula::get and the predefined-formula cache
(src/unnamed/part_001 lines 218–232) -/

/-- A `Formula` object: an allocation identity (to make `sptr` aliasing
observable) and the root atom (`none` for a null `_root`). -/
structure FormulaObj where
  id : Nat
  root : Option SAtom
  deriving Repr

/-- Process-wide registries used by `Formula::get`:
`_predefinedTeXFormulas` (the parsed cache),
`_predefinedTeXFormulasAsString` (the source strings), and an allocation
counter for fresh `Formula` objects. -/
structure FormulaRegistry where
  predefined : String → Option FormulaObj
  predefinedAsString : String → Option String
  nextId : Nat

/-- Tag test for `dynamic_cast<RowAtom*>(tf->_root.get())`. -/
def isRowRoot : Option SAtom → Bool
  | some (.row _) => true
  | _ => false

/-- Shallow embedding of `Formula::get`: return the cached formula on a
hit; otherwise parse the registered source string into a fresh `Formula`
object, store it in the cache only when its root is not a `RowAtom`, and
return it.  `parse` abstracts the external `Formula(wstring)` parse;
`none` models the thrown `ex_formula_not_found`. -/
def formulaGet (parse : String → Option SAtom) (name : String) (s : FormulaRegistry) :
    Option (FormulaObj × FormulaRegistry) :=
  match s.predefined name with
  | some tf => some (tf, s)
  | none =>
    match s.predefinedAsString name with
    | none => none
    | some str =>
      let tf : FormulaObj := ⟨s.nextId, parse str⟩
      let s' : FormulaRegistry := { s with nextId := s.nextId + 1 }
      if isRowRoot (parse str) then
        some (tf, s')
      else
        some (tf, { s' with
          predefined := fun n => if n = name then some tf else s'.predefined n })

/-- Predicate of claim C9: is the root a `RowAtom` with at least two
children? -/
def isMultiChildRow : Option SAtom → Bool
  | some (.row (_ :: _ :: _)) => true
  | _ => false

/-- Parse oracle for the C6 scenario: every string parses to a leaf atom
(a root that is not a `RowAtom`). -/
def parseLeaf : String → Option SAtom := fun _ => some (.leaf 0)

/-- Parse oracle for the C9 counterexample: every string parses to a
single-child `RowAtom` root. -/
def parseOneRow : String → Option SAtom := fun _ => some (.row [.leaf 0])

/-- Registry holding one predefined formula source string named `"x"` and
an empty parsed cache. -/
def reg0 : FormulaRegistry :=
  ⟨fun _ => none, fun n => if n = "x" then some "src" else none, 0⟩

/-! ## Formula construction and partial-parse recovery
(src/unnamed/part_001 lines 44–104) -/

/-- Error kinds of §7 of the spec; in the code each is an exception class
deriving from `std::exception`. -/
inductive TexErrorKind where
  | parseErr
  | invalidParam
  | symbolNotFound
  | formulaNotFound
  deriving DecidableEq, Repr

/-- Outcome of `_parser.parse()` on a formula under construction: either a
normal return leaving `_root` set (possibly still null), or an exception
thrown after `_root` was left in some state (null when nothing was built
before the throw). -/
inductive ParseOutcome where
  | ok (root : Option SAtom)
  | thrown (root : Option SAtom) (e : TexErrorKind)

/-- Shallow embedding of the `Formula` constructors at part_001 lines
44–61, 63–76 and 91–104: in partial mode (`lenient = true`) any exception
from `parse()` is caught by `catch (exception&)` and an `EmptyAtom` root
is substituted only when `_root` is still null; otherwise the exception
propagates out of the constructor. -/
def formulaCtorMain (lenient : Bool) (o : ParseOutcome) : Except TexErrorKind (Option SAtom) :=
  if lenient then
    match o with
    | .ok r => .ok r
    | .thrown r _ => .ok (match r with | none => some .emptyAtom | some a => some a)
  else
    match o with
    | .ok r => .ok r
    | .thrown _ e => .error e

/-- Shallow embedding of the `Formula` constructor at part_001 lines
78–89 (the `firstpass` overload): its catch block is empty, so in partial
mode a failed parse leaves `_root` as the parser left it — no empty atom
is substituted. -/
def formulaCtorFirstpass (lenient : Bool) (o : ParseOutcome) :
    Except TexErrorKind (Option SAtom) :=
  if lenient then
    match o with
    | .ok r => .ok r
    | .thrown r _ => .ok r
  else
    match o with
    | .ok r => .ok r
    | .thrown _ e => .error e

/-! ## ArrayFormula (src/unnamed/part_001, `ArrayFormula`) -/

/-- Cell atom as seen by `checkDimensions`: only the `_type ==
AtomType::interText` test matters. -/
structure CAtom where
  isInterText : Bool
  deriving DecidableEq, Repr

/-- Array bookkeeping state: the row-major table of cells (a cell is
`none` for a null atom) and the pending `_root` of the cell being
built. -/
structure ArrState where
  array : List (List (Option CAtom))
  root : Option CAtom

/-- Shallow embedding of `ArrayFormula::addCol` (one-argument form):
pushes the pending root onto the current (last) row and clears it. -/
def addColA (s : ArrState) : ArrState :=
  { array := s.array.dropLast ++ [(s.array.getLast?.getD []) ++ [s.root]], root := none }

/-- Shallow embedding of `ArrayFormula::addRow`: finishes the current cell
and opens a fresh empty row. -/
def addRowA (s : ArrState) : ArrState :=
  let s := addColA s
  { s with array := s.array ++ [[]] }

/-- First step of `checkDimensions`: if the trailing row is non-empty or a
cell is pending, close the current row. -/
def finalizeArr (s : ArrState) : ArrState :=
  if (s.array.getLast?.getD []).length ≠ 0 ∨ s.root ≠ none then addRowA s else s

/-- Column count of the widest row among rows `0 .. row-1`, as computed by
`checkDimensions`: start from row 0's size and scan rows `1 .. row-1`. -/
def widestCol (rows : List (List (Option CAtom))) (row : Nat) : Nat :=
  ((rows.take row).map List.length).foldl max ((rows.headD []).length)

/-- Padding guard of `checkDimensions`: the row is padded only when its
first cell exists, is non-null and is not an inter-text marker (C++
indexes `_array[i][0]` only on rows built through `addCol`, which are
never empty). -/
def padGuard (r : List (Option CAtom)) : Bool :=
  match r.head? with
  | some (some a) => !a.isInterText
  | _ => false

/-- Shallow embedding of `ArrayFormula::checkDimensions`, returning the
resulting cell table: after closing any pending row, every content row
(the trailing empty row excluded) whose size differs from the widest
row's and whose first cell passes the guard is padded with null cells. -/
def checkDimensions (s : ArrState) : List (List (Option CAtom)) :=
  let t := finalizeArr s
  let row := t.array.length - 1
  let col := widestCol t.array row
  t.array.mapIdx (fun i r =>
    if i < row ∧ r.length ≠ col ∧ padGuard r then
      r ++ List.replicate (col - r.length) none
    else r)

/-- Exemption predicate of claim C8: the row's first cell is an inter-text
marker. -/
def claimExempt (r : List (Option CAtom)) : Bool :=
  match r.head? with
  | some (some a) => a.isInterText
  | _ => false

/-- Ordinary (non-inter-text) cell atom. -/
def plainCell : CAtom := ⟨false⟩

/-- Array state for the C8 counterexample: a finished 3-cell row, a
finished row holding a single null cell, and the trailing empty row. -/
def arrCex : ArrState :=
  ⟨[[some plainCell, some plainCell, some plainCell], [none], []], none⟩

/-- Array state for the C8 witness: row 0 has 3 cells, row 1 a single
non-null, non-inter-text cell, as in the claim's concrete instance. -/
def arrEx : ArrState :=
  ⟨[[some plainCell, some plainCell, some plainCell], [some plainCell], []], none⟩

/-! ## MicroTeX::init (src/lib/microtex.cpp lines 74–84) -/

/-- The static `Config` of microtex.cpp. -/
structure Config where
  isInited : Bool
  defaultMainFontFamily : String
  defaultMathFontName : String
  renderGlyphUsePath : Bool
  deriving DecidableEq, Repr

/-- Font metadata returned by `FontContext::addFont`; a default-constructed
(empty) `FontMeta` has empty names and no math-font flag. -/
structure FontMeta where
  name : String
  family : String
  isMathFont : Bool
  deriving DecidableEq, Repr

/-- Default-constructed `FontMeta`, the `return {}` value. -/
def emptyFontMeta : FontMeta := ⟨"", "", false⟩

/-- Modelled from the spec: `FontMeta::isValid` (not in src) — per the
error message `"... is not a math font!"`, a meta is valid when it
describes a math font. -/
def FontMeta.isValid (m : FontMeta) : Bool := m.isMathFont

/-- Global state touched by `MicroTeX::init`: the config, the font
registry behind `FontContext::addFont`, and the `NewCommandMacro`
initialization flag. -/
structure MicroTeXState where
  config : Config
  fonts : List FontMeta
  macrosInited : Bool
  deriving DecidableEq, Repr

/-- Shallow embedding of `MicroTeX::init(const FontSrc&)`: when already
inited, return a default `FontMeta` and change nothing; otherwise register
the font (whose metadata `meta` abstracts the external
`FontContext::addFont`), fail on a non-math font, and record the default
math font name, the inited flag and the macro initialization. -/
def microTeXInit (meta : FontMeta) (s : MicroTeXState) :
    Except String (FontMeta × MicroTeXState) :=
  if s.config.isInited then .ok (emptyFontMeta, s)
  else
    let s1 := { s with fonts := s.fonts ++ [meta] }
    if !meta.isValid then .error "not a math font"
    else .ok (meta,
      { s1 with
        config := { s1.config with defaultMathFontName := meta.name, isInited := true },
        macrosInited := true })

/-- Already-initialized state for the C10 witness: config with the inited
flag set, math font "m", main family "f", one registered font. -/
def mtStateEx : MicroTeXState := ⟨⟨true, "f", "m", false⟩, [⟨"m", "mf", true⟩], true⟩

end MicroTeX

namespace MicroTeX

/-- Every delimiter `tex::createVDelim` builds reaches the requested
vertical extent: a found variant satisfies the search predicate, a
synthesized assembly has exactly the requested extent. -/
theorem le_vlen_createVDelim (sym : String) (env : FEnv) (h : ℚ) :
    h ≤ (createVDelim sym env h).vlen := by
  unfold createVDelim
  split
  next v heq => simpa using List.find?_some heq
  next => simp [Box.vlen]

/-- A middle atom's box reaches the middle's stored height: the
placeholder is returned only when that height is zero. -/
theorem le_vlen_midCreateBox (m : MidAtom) (env : FEnv) :
    m.height ≤ (midCreateBox m env).vlen := by
  unfold midCreateBox
  split
  next h0 => simp [midPlaceholder, Box.vlen, h0]
  next => exact le_vlen_createVDelim m.sym env m.height

/-- Left delimiter box produced by `FencedAtom::createBox`, written out. -/
theorem fencedOut_left (f : FencedAtom) (env : FEnv) (bb : Box) :
    (fencedCreateBox f env (some bb)).1.leftBox
      = (if f.left ≠ "" ∧ f.left ≠ "." then
          some (centerOnAxis (env.axisHeight * env.scale)
            (createVDelim f.left env (centerOnAxis (env.axisHeight * env.scale) bb).vlen))
        else none) := by
  rcases f with ⟨l, r, mids, bir, bbk⟩
  cases bir <;> rfl

/-- Right delimiter box produced by `FencedAtom::createBox`, written out. -/
theorem fencedOut_right (f : FencedAtom) (env : FEnv) (bb : Box) :
    (fencedCreateBox f env (some bb)).1.rightBox
      = (if f.right ≠ "" ∧ f.right ≠ "." then
          some (centerOnAxis (env.axisHeight * env.scale)
            (createVDelim f.right env (centerOnAxis (env.axisHeight * env.scale) bb).vlen))
        else none) := by
  rcases f with ⟨l, r, mids, bir, bbk⟩
  cases bir <;> rfl

/-- Middle delimiter boxes produced by `FencedAtom::createBox`, written
out: each middle's height is first fixed to the base's extent, the
resulting delimiter is centered on the axis and the base's shift is
undone. -/
theorem fencedOut_mids (f : FencedAtom) (env : FEnv) (bb : Box) :
    (fencedCreateBox f env (some bb)).1.midBoxes
      = (f.mids.map (fun m =>
            { m with height := (centerOnAxis (env.axisHeight * env.scale) bb).vlen })).map
          (fun m =>
            let b := centerOnAxis (env.axisHeight * env.scale) (midCreateBox m env)
            { b with shift := b.shift - (centerOnAxis (env.axisHeight * env.scale) bb).shift }) := by
  rcases f with ⟨l, r, mids, bir, bbk⟩
  cases bir <;> rfl

/-- C1 counterexample: for a base of height 1 and depth 1 on axis height 1,
scale 1, the interior middle delimiter's final shift is 1, while
`-(extent/2 - height) - axisHeight·scale` computed from that box is 0 —
the claimed shift equation fails for middles. -/
theorem fenced_middle_shift_cex :
    (fencedCreateBox fencedEx fenv0 (some baseBoxEx)).1.midBoxes = [⟨0, 2, 0, 1⟩]
    ∧ ¬ delimShiftClaim fenv0 ⟨0, 2, 0, 1⟩ := by
  constructor
  · rw [fencedOut_mids]
    norm_num [fencedEx, fenv0, baseBoxEx, centerOnAxis, midCreateBox, createVDelim,
      midPlaceholder, Box.vlen]
  · norm_num [delimShiftClaim, fenv0, Box.vlen]

/-- C1 amended: every stretched delimiter box (left, interior middle,
right) has vertical extent at least the base box's; the left and right
delimiters' shift equals `-(extent/2 - height) - axisHeight·scale`; each
interior middle's shift equals that centering value minus the centered
base box's own shift (the middle is spliced into the base after undoing
the base's shift). -/
theorem fenced_delim_extent_and_shift (f : FencedAtom) (env : FEnv) (bb : Box) :
    (∀ lb, (fencedCreateBox f env (some bb)).1.leftBox = some lb →
        bb.vlen ≤ lb.vlen ∧ delimShiftClaim env lb)
    ∧ (∀ rb, (fencedCreateBox f env (some bb)).1.rightBox = some rb →
        bb.vlen ≤ rb.vlen ∧ delimShiftClaim env rb)
    ∧ (∀ mb ∈ (fencedCreateBox f env (some bb)).1.midBoxes,
        bb.vlen ≤ mb.vlen
        ∧ mb.shift = -(mb.vlen / 2 - mb.height) - env.axisHeight * env.scale
            - (centerOnAxis (env.axisHeight * env.scale) bb).shift) := by
  refine ⟨?_, ?_, ?_⟩
  · intro lb hlb
    rw [fencedOut_left] at hlb
    split at hlb
    · cases hlb
      exact ⟨le_vlen_createVDelim _ _ _, rfl⟩
    · exact Option.noConfusion hlb
  · intro rb hrb
    rw [fencedOut_right] at hrb
    split at hrb
    · cases hrb
      exact ⟨le_vlen_createVDelim _ _ _, rfl⟩
    · exact Option.noConfusion hrb
  · intro mb hmb
    rw [fencedOut_mids] at hmb
    simp only [List.map_map, List.mem_map, Function.comp] at hmb
    obtain ⟨m, _, rfl⟩ := hmb
    exact ⟨le_vlen_midCreateBox _ env, rfl⟩

/-- C1 witness: instantiating the fenced invariant at the concrete fenced
atom, environment and base box of the counterexample, for the interior
middle box it produces there. -/
theorem fenced_delim_extent_and_shift_witness :
    baseBoxEx.vlen ≤ (Box.mk 0 2 0 1).vlen
    ∧ (Box.mk 0 2 0 1).shift
        = -((Box.mk 0 2 0 1).vlen / 2 - (Box.mk 0 2 0 1).height)
            - fenv0.axisHeight * fenv0.scale
            - (centerOnAxis (fenv0.axisHeight * fenv0.scale) baseBoxEx).shift :=
  (fenced_delim_extent_and_shift fencedEx fenv0 baseBoxEx).2.2 ⟨0, 2, 0, 1⟩ (by
    rw [fencedOut_mids]
    norm_num [fencedEx, fenv0, baseBoxEx, centerOnAxis, midCreateBox, createVDelim,
      midPlaceholder, Box.vlen])

/-- C5 counterexample: laying out the concrete fenced atom mutates it —
the middle atom's stored height changes from 0 to the base's extent 2, so
the atom tree is not left unchanged by `createBox`. -/
theorem fenced_layout_mutates :
    (fencedCreateBox fencedEx fenv0 (some baseBoxEx)).2 ≠ fencedEx := by
  norm_num [fencedCreateBox, fencedEx, fenv0, baseBoxEx, centerOnAxis, Box.vlen,
    FencedAtom.mk.injEq, MidAtom.mk.injEq]

/-- C5 amended: layout's mutations of the atom tree are exactly these.
`FencedAtom::createBox` stores the base box's vertical extent into every
middle atom's height and clears a row base's breakable flag (a null base
leaves the atom untouched); `SideSetsAtom::createBox` installs the
phantom base when `_base` is null and installs the base-derived
placeholder (plus right alignment on the left side) as the base of a
side script cluster whose base is null — every other field of both atoms
keeps its prior value. -/
theorem layout_mutation_frame (f : FencedAtom) (env : FEnv) (bb : Box)
    (layoutOf : SSBase → Box) (a : SideSetsAtom) :
    (fencedCreateBox f env none).2 = f
    ∧ (fencedCreateBox f env (some bb)).2
        = { f with mids := f.mids.map (fun m => { m with height := bb.vlen }),
                   baseBreakable := if f.baseIsRow then false else f.baseBreakable }
    ∧ sideSetsCreateBox layoutOf a
        = { base := some (a.base.getD .phantomM),
            leftC := sideInstall (placeholderOf (layoutOf (a.base.getD .phantomM))) true a.leftC,
            rightC :=
              sideInstall (placeholderOf (layoutOf (a.base.getD .phantomM))) false a.rightC } := by
  refine ⟨rfl, ?_, ?_⟩
  · rcases f with ⟨l, r, mids, bir, bbk⟩
    cases bir <;> rfl
  · rcases a with ⟨ab, lc, rc⟩
    cases ab <;> cases lc <;> cases rc <;>
      simp [sideSetsCreateBox, sideInstall, Option.getD]

/-- C2: `ResizeAtom::createBox` returns the base unchanged when no target
dimension is set; scales both axes by `W / width` (resp. `H / vlen`) when
only one is set; scales independently when both are set without the
aspect-ratio lock; and uses the smaller ratio on both axes with the lock. -/
theorem resize_scale_factors (W H : ℚ) (k : Bool) (b : Box) :
    resizeCreateBox none none k b = .unchanged b
    ∧ resizeCreateBox (some W) none k b = .scaled b (W / b.width) (W / b.width)
    ∧ resizeCreateBox none (some H) k b = .scaled b (H / b.vlen) (H / b.vlen)
    ∧ resizeCreateBox (some W) (some H) false b = .scaled b (W / b.width) (H / b.vlen)
    ∧ resizeCreateBox (some W) (some H) true b
        = .scaled b (min (W / b.width) (H / b.vlen)) (min (W / b.width) (H / b.vlen)) := by
  refine ⟨rfl, rfl, rfl, rfl, rfl⟩

/-- C4: for divisor 3 and dividend 7, `LongDivAtom::calculate` produces
`["2", "7", "6", "1"]` — quotient `"2"`, initial remainder `"7"`, then the
partial product `"6"` and the new remainder `"1"`. -/
theorem longdiv_three_seven : longDivCalculate 3 7 = ["2", "7", "6", "1"] := by
  decide

/-- C3: attaching subscript `a`, then superscript `b`, then subscript `c`
to a base that is not itself a script atom accumulates into one
`CumulativeScriptsAtom` over the original base with subscript row
`[a, c]` and superscript row `[b]`; and attaching to a base that already
is a `CumulativeScriptsAtom` or a `ScriptsAtom` appends onto its row
containers while keeping its base — never nesting script atoms. -/
theorem cumulative_scripts_accumulate (B a b c : SAtom) (hB : isScriptKind B = false) :
    cumulativeScripts (cumulativeScripts (cumulativeScripts B (some a) none) none (some b))
        (some c) none
      = .cumulative B [a, c] [b]
    ∧ (∀ b0 sb sp sub sup, cumulativeScripts (.cumulative b0 sb sp) sub sup
        = .cumulative b0 (rowAdd sb sub) (rowAdd sp sup))
    ∧ (∀ b0 s p sub sup, cumulativeScripts (.scripts b0 s p) sub sup
        = .cumulative b0 (rowAdd (rowOf s) sub) (rowAdd (rowOf p) sup)) := by
  refine ⟨?_, fun _ _ _ _ _ => rfl, fun _ _ _ _ _ => rfl⟩
  cases B
  case leaf => rfl
  case row => rfl
  case emptyAtom => rfl
  case scripts => simp [isScriptKind] at hB
  case cumulative => simp [isScriptKind] at hB

/-- C3 witness: the three-step attachment on the concrete non-script base
`leaf 0` with scripts `leaf 1`, `leaf 2`, `leaf 3`. -/
theorem cumulative_scripts_accumulate_witness :
    isScriptKind (.leaf 0) = false
    ∧ cumulativeScripts
        (cumulativeScripts (cumulativeScripts (.leaf 0) (some (.leaf 1)) none)
          none (some (.leaf 2))) (some (.leaf 3)) none
      = .cumulative (.leaf 0) [.leaf 1, .leaf 3] [.leaf 2] :=
  ⟨rfl, (cumulative_scripts_accumulate (.leaf 0) (.leaf 1) (.leaf 2) (.leaf 3) rfl).1⟩

/-- C6: evaluating `Formula::get` at the failing input — a registered
source string parsing to a non-Row root, looked up twice.  The first call
returns the object with allocation id 0 and stores that very object in
the registry; the second call returns it again (id 0, and no new object
is allocated: the counter stays at 1).  All three handles alias one
`Formula`, contradicting the documented independent copy. -/
theorem formulaGet_aliases_cache :
    (formulaGet parseLeaf "x" reg0).map (fun p => p.1.id) = some 0
    ∧ (formulaGet parseLeaf "x" reg0).bind
        (fun p => (p.2.predefined "x").map (fun t => t.id)) = some 0
    ∧ (formulaGet parseLeaf "x" reg0).bind
        (fun p => (formulaGet parseLeaf "x" p.2).map (fun q => q.1.id)) = some 0
    ∧ (formulaGet parseLeaf "x" reg0).bind
        (fun p => (formulaGet parseLeaf "x" p.2).map (fun q => q.2.nextId)) = some 1 :=
  ⟨rfl, rfl, rfl, rfl⟩

/-- How `Formula::get` behaves on a first lookup of a registered name,
written out: it parses a fresh object and caches it exactly when the root
is not a `RowAtom`. -/
theorem formulaGet_miss (parse : String → Option SAtom) (name str : String)
    (s : FormulaRegistry) (h1 : s.predefined name = none)
    (h2 : s.predefinedAsString name = some str) :
    formulaGet parse name s
      = (if isRowRoot (parse str) then
          some (⟨s.nextId, parse str⟩, { s with nextId := s.nextId + 1 })
        else
          some (⟨s.nextId, parse str⟩,
            { s with
              nextId := s.nextId + 1
              predefined := fun n =>
                if n = name then some ⟨s.nextId, parse str⟩ else s.predefined n })) := by
  unfold formulaGet
  rw [h1, h2]

/-- C9 counterexample: a source string parsing to a single-child `RowAtom`
root is not a multi-child Row, yet `Formula::get` does not cache it and a
second lookup re-parses (allocating a fresh object, id 1). -/
theorem formulaGet_single_row_not_cached :
    isMultiChildRow (parseOneRow "src") = false
    ∧ (formulaGet parseOneRow "x" reg0).bind (fun p => p.2.predefined "x") = none
    ∧ (formulaGet parseOneRow "x" reg0).bind
        (fun p => (formulaGet parseOneRow "x" p.2).map (fun q => q.1.id)) = some 1 :=
  ⟨rfl, rfl, rfl⟩

/-- C9 amended: on a first lookup the parse result is cached if and only
if its root is not a `RowAtom` at all (regardless of child count); with a
Row root the registry is left unchanged, so a later lookup re-parses. -/
theorem formulaGet_caches_iff_not_row (parse : String → Option SAtom) (name str : String)
    (s : FormulaRegistry) (h1 : s.predefined name = none)
    (h2 : s.predefinedAsString name = some str) :
    ∃ s', formulaGet parse name s = some (⟨s.nextId, parse str⟩, s')
      ∧ ((s'.predefined name).isSome ↔ isRowRoot (parse str) = false)
      ∧ (isRowRoot (parse str) = true → s'.predefined = s.predefined) := by
  rw [formulaGet_miss parse name str s h1 h2]
  cases hr : isRowRoot (parse str)
  · refine ⟨_, rfl, ?_, ?_⟩
    · simp
    · intro hc; exact Bool.noConfusion hc
  · refine ⟨_, rfl, ?_, ?_⟩
    · simp [h1]
    · intro _; rfl

/-- C9 witness: first lookup of the registered name `"x"` whose string
parses to a single-child Row root. -/
theorem formulaGet_caches_iff_not_row_witness :
    reg0.predefined "x" = none
    ∧ ∃ s', formulaGet parseOneRow "x" reg0 = some (⟨reg0.nextId, parseOneRow "src"⟩, s')
        ∧ ((s'.predefined "x").isSome ↔ isRowRoot (parseOneRow "src") = false)
        ∧ (isRowRoot (parseOneRow "src") = true → s'.predefined = reg0.predefined) :=
  ⟨rfl, formulaGet_caches_iff_not_row parseOneRow "x" "src" reg0 rfl rfl⟩

/-- C7 counterexample: in partial mode a parse error thrown after the
parser already set a root leaves that root (not an empty atom) in the
constructed formula; and a symbol-not-found error is caught by the
constructor's `catch (exception&)` instead of propagating. -/
theorem formula_ctor_recovery_cex :
    formulaCtorMain true (.thrown (some (.leaf 0)) .parseErr) = .ok (some (.leaf 0))
    ∧ (SAtom.leaf 0) ≠ SAtom.emptyAtom
    ∧ formulaCtorMain true (.thrown none .symbolNotFound) = .ok (some .emptyAtom) :=
  ⟨rfl, fun h => SAtom.noConfusion h, rfl⟩

/-- C7 amended: in partial mode the `Formula` constructor catches every
exception the parser throws (parse errors and other kinds alike) and
substitutes an empty atom as root only when the parser left no root,
keeping a partially built root otherwise; the firstpass overload
substitutes nothing; in strict mode every parser exception propagates out
of the constructor. -/
theorem formula_ctor_recovery (r : Option SAtom) (e : TexErrorKind) :
    formulaCtorMain true (.ok r) = .ok r
    ∧ formulaCtorMain true (.thrown r e) = .ok (some (r.getD .emptyAtom))
    ∧ formulaCtorFirstpass true (.thrown r e) = .ok r
    ∧ formulaCtorMain false (.ok r) = .ok r
    ∧ formulaCtorMain false (.thrown r e) = .error e
    ∧ formulaCtorFirstpass false (.thrown r e) = .error e := by
  refine ⟨rfl, ?_, rfl, rfl, rfl, rfl⟩
  cases r <;> rfl

/-- Element lookup commutes with `mapIdx`. -/
theorem get?_mapIdx_eq {α β : Type} (l : List α) (f : ℕ → α → β) (i : ℕ) (r : α)
    (hr : l.get? i = some r) : (l.mapIdx f).get? i = some (f i r) := by
  obtain ⟨hlen, hget⟩ := List.get?_eq_some.mp hr
  have h' : i < (l.mapIdx f).length := by simpa using hlen
  rw [List.get?_eq_get h', List.get_mapIdx l f i hlen, hget]

/-- C8 counterexample: in a 2-row array whose second row is a single null
cell, that row's first cell is not an inter-text marker, yet
`checkDimensions` leaves the row unpadded (still one cell instead of
three): the padding guard also exempts rows starting with a null cell. -/
theorem checkDimensions_null_first_cell :
    claimExempt [(none : Option CAtom)] = false
    ∧ (checkDimensions arrCex).get? 1 = some [none] := by
  exact ⟨rfl, rfl⟩

/-- C8 amended: `checkDimensions` pads every content row to the column
count of the widest row by appending null placeholder cells, except rows
whose first cell is null or an inter-text marker, which keep their
original length. -/
theorem checkDimensions_pads_rows (s : ArrState) (i : Nat) (r : List (Option CAtom))
    (hi : i < (finalizeArr s).array.length - 1)
    (hr : (finalizeArr s).array.get? i = some r) :
    (checkDimensions s).get? i
      = some (if r.length ≠ widestCol (finalizeArr s).array ((finalizeArr s).array.length - 1)
            ∧ padGuard r then
          r ++ List.replicate
            (widestCol (finalizeArr s).array ((finalizeArr s).array.length - 1) - r.length)
            none
        else r) := by
  unfold checkDimensions
  rw [get?_mapIdx_eq _ _ i r hr]
  simp [hi]

/-- C8 witness: the claim's concrete instance — row 0 with 3 cells, row 1
with one non-null, non-inter-text cell — ends with row 1 padded to 3
cells by null placeholders. -/
theorem checkDimensions_pads_rows_witness :
    (checkDimensions arrEx).get? 1 = some [some plainCell, none, none] := by
  have h := checkDimensions_pads_rows arrEx 1 [some plainCell] (by decide) (by decide)
  rw [h]
  decide

/-- C10: a second `MicroTeX::init` call after a successful initialization
returns a default-constructed `FontMeta` and changes nothing: no font is
registered and the configuration (default math font name, main family,
inited flag) keeps its prior values. -/
theorem microTeXInit_noop_when_inited (meta : FontMeta) (s : MicroTeXState)
    (h : s.config.isInited = true) :
    microTeXInit meta s = .ok (emptyFontMeta, s) := by
  unfold microTeXInit
  rw [h]
  rfl

/-- C10 witness: re-initializing the concrete already-initialized state. -/
theorem microTeXInit_noop_when_inited_witness :
    mtStateEx.config.isInited = true
    ∧ microTeXInit ⟨"n", "nf", true⟩ mtStateEx = .ok (emptyFontMeta, mtStateEx) :=
  ⟨rfl, microTeXInit_noop_when_inited ⟨"n", "nf", true⟩ mtStateEx rfl⟩

end MicroTeX
